import Mathlib

set_option maxHeartbeats 1000000

/-!
Verification development for the resume-tailoring pipeline (`tailor.py`).

The program is a linear orchestration script: locate a job-posting text
file, call an LLM, strip markdown code fences from the reply, check for
LaTeX document markers, write the tailored file, and run `pdflatex`
twice.  The definitions below embed the observable behaviour of each
function of the source file; external effects (filesystem, network,
subprocess) are represented by explicit input data (`World`,
`PassResult`) and output traces (`Trace`, `CompileTrace`).

Characters and strings are modelled with `List Char` / `String`;
Python's whitespace classes (`str.strip`, regex `\s`) are modelled by
`isPySpace`, covering the ASCII whitespace characters and the Unicode
space characters that CPython treats as whitespace.
-/

/-- Backtick character (0x60), written numerically. -/
def backtick : Char := Char.ofNat 96

/-- Whitespace test modelling Python's `str.isspace` / regex `\s`
(Unicode mode): ASCII whitespace, the C1 separators 0x1c-0x1f, NEL,
NBSP, and the Unicode space separators. -/
def isPySpace (c : Char) : Bool :=
  c == ' ' || c == '\t' || c == '\n' || c == '\r' ||
  c == Char.ofNat 11 || c == Char.ofNat 12 ||
  (28 ≤ c.toNat && c.toNat ≤ 31) ||
  c.toNat == 0x85 || c.toNat == 0xa0 || c.toNat == 0x1680 ||
  (0x2000 ≤ c.toNat && c.toNat ≤ 0x200a) ||
  c.toNat == 0x2028 || c.toNat == 0x2029 ||
  c.toNat == 0x202f || c.toNat == 0x205f || c.toNat == 0x3000

/-- Python `str.lstrip()` (no argument): drop leading whitespace. -/
def pyStripLeft (s : List Char) : List Char := s.dropWhile isPySpace

/-- Python `str.rstrip()` (no argument): drop trailing whitespace. -/
def pyStripRight (s : List Char) : List Char := (s.reverse.dropWhile isPySpace).reverse

/-- Python `str.strip()` (no argument). -/
def pyStrip (s : List Char) : List Char := pyStripRight (pyStripLeft s)

/-- Python's `pat in s` substring test: some contiguous run of `s`
equals `pat`. -/
def containsSub (pat : List Char) : List Char → Bool
  | [] => pat.isEmpty
  | c :: rest => pat.isPrefixOf (c :: rest) || containsSub pat rest

/-- Matching of the regex fragment `\s*\n` with greedy backtracking:
consume a run of whitespace ending at a newline, preferring the longest
such run, and return the remainder; `none` when no match exists. -/
def consumeWsNl : List Char → Option (List Char)
  | [] => none
  | c :: rest =>
    if isPySpace c then
      match consumeWsNl rest with
      | some r => some r
      | none => if c == '\n' then some rest else none
    else none

/-- The three-backtick fence marker. -/
def fence : List Char := [backtick, backtick, backtick]

/-- A newline followed by the fence marker. -/
def nlFence : List Char := '\n' :: fence

/-- The literal language tag `latex` of the fence-opening regex. -/
def latexTag : List Char := ['l', 'a', 't', 'e', 'x']

/-- The literal language tag `tex` of the fence-opening regex. -/
def texTag : List Char := ['t', 'e', 'x']

/-- One alternative of the regex group `(?:latex|tex)?` followed by
`\s*\n`: the literal tag, then a whitespace run ending at a newline. -/
def tryTag (tag r : List Char) : Option (List Char) :=
  if tag.isPrefixOf r then consumeWsNl (r.drop tag.length) else none

/-- Effect of `re.sub(r"^(three backticks)(?:latex|tex)?\s*\n", "", s)`:
when the string starts with the fence, try the alternatives `latex`,
`tex`, empty (in the regex's order, with backtracking) each followed by
`\s*\n`, and remove the matched region; otherwise the string is
unchanged. -/
def stripLeadFence (s : List Char) : List Char :=
  if fence.isPrefixOf s then
    match tryTag latexTag (s.drop 3), tryTag texTag (s.drop 3), consumeWsNl (s.drop 3) with
    | some r, _, _ => r
    | none, some r, _ => r
    | none, none, some r => r
    | none, none, none => s
  else s

/-- Position test for the regex `\n(three backticks)\s*$` (no MULTILINE):
the suffix starts with a newline and the fence, and everything after is
whitespace, so that the greedy `\s*` reaches the end of the string. -/
def trailAt (s : List Char) : Bool :=
  nlFence.isPrefixOf s && (s.drop 4).all isPySpace

/-- Effect of `re.sub(r"\n(three backticks)\s*$", "", s)`: scan left to
right for the first position where the trailing-fence pattern matches;
the greedy match extends to the end of the string, so everything from
that position on is removed. -/
def stripTrailFence : List Char → List Char
  | [] => []
  | c :: rest => if trailAt (c :: rest) then [] else c :: stripTrailFence rest

/-- Model of `strip_markdown_fences` from `tailor.py`: strip surrounding
whitespace, then remove a leading fence line, then remove a trailing
fence line. -/
def strip_markdown_fences (s : List Char) : List Char :=
  stripTrailFence (stripLeadFence (pyStrip s))

/-- The literal begin-of-document marker. -/
def beginMarker : List Char := "\\begin{document}".data

/-- The literal end-of-document marker. -/
def endMarker : List Char := "\\end{document}".data

/-- Model of `validate_latex` from `tailor.py`: the returned boolean is
true exactly when both markers occur in the text (the function also
prints a warning when it returns false; that effect is recorded by
`main` below). -/
def validate_latex (t : List Char) : Bool :=
  containsSub beginMarker t && containsSub endMarker t

/-- Worker for `pyReplace`, structurally recursive on a fuel counter so
that it evaluates inside the kernel.  When the pattern is nonempty every
step consumes at least one character of the input, so fuel equal to the
input length is never exhausted. -/
def pyReplaceAux (pat rep : List Char) : Nat → List Char → List Char
  | _, [] => []
  | 0, s => s
  | fuel + 1, c :: rest =>
    if pat.isPrefixOf (c :: rest) then rep ++ pyReplaceAux pat rep fuel (rest.drop (pat.length - 1))
    else c :: pyReplaceAux pat rep fuel rest

/-- Python `s.replace(pat, rep)` for a nonempty pattern: replace all
non-overlapping occurrences, scanning left to right.  (Python's
behaviour for an empty pattern, interspersing `rep`, is not modelled;
the source only replaces the nonempty literals `.tex` ↦ `.log` and
`.tex` ↦ `.pdf`.) -/
def pyReplace (pat rep s : List Char) : List Char :=
  match pat with
  | [] => s
  | _ :: _ => pyReplaceAux pat rep s.length s

/-- String wrapper around `pyReplace`. -/
def pyReplaceS (pat rep s : String) : String := String.mk (pyReplace pat.data rep.data s.data)

/-- String starts-with test. -/
def strStartsWith (s pre : String) : Bool := pre.data.isPrefixOf s.data

/-- String ends-with test. -/
def strEndsWith (s suf : String) : Bool := suf.data.isSuffixOf s.data

/-- Python `s[-n:]` (also covering the source's `if result.stdout`
guard: on the empty string both sides give the empty string). -/
def strLast (n : Nat) (s : String) : String := String.mk (s.data.drop (s.data.length - n))

/-- POSIX `os.path.join` for two components: an absolute second
component discards the first; otherwise a separator is inserted unless
the first component is empty or already ends with one. -/
def ospJoin (a b : String) : String :=
  if strStartsWith b "/" then b
  else if a == "" || strEndsWith a "/" then a ++ b
  else a ++ "/" ++ b

/-- POSIX `os.path.basename`: the part after the last slash. -/
def basename (s : String) : String :=
  String.mk ((s.data.reverse.takeWhile fun c => !(c == '/')).reverse)

/-- String wrapper around `strip_markdown_fences`. -/
def stripFencesStr (s : String) : String := String.mk (strip_markdown_fences s.data)

/-- String wrapper around `validate_latex`. -/
def validateLatexStr (s : String) : Bool := validate_latex s.data

/-- Result of `find_job_posting`: either the `sys.exit(1)` path taken
when no `.txt` file matches, or the first matching path together with
the flag recording whether the multiple-files warning was printed. -/
inductive FindOutcome where
  | exitNoTxt : FindOutcome
  | found : String → Bool → FindOutcome
deriving DecidableEq

/-- Model of `find_job_posting` from `tailor.py`, as a function of the
list of glob matches: exit when the list is empty, otherwise return the
first element, warning when there is more than one. -/
def find_job_posting : List String → FindOutcome
  | [] => FindOutcome.exitNoTxt
  | p :: rest => FindOutcome.found p (!rest.isEmpty)

/-- Outcome of one `subprocess.run` invocation of the compiler. -/
structure PassResult where
  returncode : Int
  stdout : String
deriving DecidableEq

/-- Observable behaviour of `compile_pdf`: whether the second pass was
invoked, the boolean result, which pass failed (if any), and what the
failure branch reported (log path and truncated captured output). -/
structure CompileTrace where
  pass2Ran : Bool
  success : Bool
  failedPass : Option Nat
  reportedLog : Option String
  reportedTail : Option String
deriving DecidableEq

/-- Model of `compile_pdf` from `tailor.py`: run pass 1; on nonzero exit
report the log path and the last 2000 characters of captured output and
stop; otherwise run pass 2 with the same failure handling; succeed when
both passes exit zero. -/
def compile_pdf (tex_path company_dir : String) (p1 p2 : PassResult) : CompileTrace :=
  let tex_filename := basename tex_path
  let log_path := ospJoin company_dir (pyReplaceS ".tex" ".log" tex_filename)
  if p1.returncode ≠ 0 then
    { pass2Ran := false, success := false, failedPass := some 1,
      reportedLog := some log_path, reportedTail := some (strLast 2000 p1.stdout) }
  else if p2.returncode ≠ 0 then
    { pass2Ran := true, success := false, failedPass := some 2,
      reportedLog := some log_path, reportedTail := some (strLast 2000 p2.stdout) }
  else
    { pass2Ran := true, success := true, failedPass := none,
      reportedLog := none, reportedTail := none }

/-- Inputs of one run of the script: command line, environment, and the
responses of the external world (directory listing, file contents, LLM
reply, compiler exit data). -/
structure World where
  repoRoot : String
  argv : List String
  apiKey : Option String
  dirExists : Bool
  txtFiles : List String
  resumeContent : String
  postingContent : String
  llmResponse : String
  pass1 : PassResult
  pass2 : PassResult
deriving DecidableEq

/-- Observable effects of one run of `main`: exit status, whether the
LLM was invoked, which files were opened for reading (in order), the
file written (path and content), the validator result and its warning,
the multiple-txt warning, the not-found error, the compiler trace, and
the artifact path printed on success. -/
structure Trace where
  exitCode : Nat
  llmCalled : Bool
  filesRead : List String
  written : Option (String × String)
  validation : Option Bool
  validationWarned : Bool
  multiTxtWarned : Bool
  notFoundTxt : Bool
  compiled : Option CompileTrace
  pdfReported : Option String
deriving DecidableEq

/-- Truthiness of `os.environ.get("GOOGLE_API_KEY")`: absent and empty
both count as unset. -/
def apiKeyPresent : Option String → Bool
  | none => false
  | some s => !(s == "")

/-- The positional argument `sys.argv[1]`. -/
def offerName (w : World) : String := w.argv.getD 1 ""

/-- The constant `RESUME_TEX` path. -/
def resumeTexPath (w : World) : String := ospJoin w.repoRoot "resume.tex"

/-- The `company_dir` path computed by `main`. -/
def companyDir (w : World) : String := ospJoin (ospJoin w.repoRoot "offers") (offerName w)

/-- The `output_tex` path computed by `main`. -/
def outputTexPath (w : World) : String := ospJoin (companyDir w) ("resume-" ++ offerName w ++ ".tex")

/-- Trace of an early-exit path of `main` (usage error, missing
directory, missing credential, missing posting file): exit status 1 and
no further effects beyond the reads already performed. -/
def errTrace (reads : List String) (ntf : Bool) : Trace :=
  { exitCode := 1, llmCalled := false, filesRead := reads, written := none,
    validation := none, validationWarned := false, multiTxtWarned := false,
    notFoundTxt := ntf, compiled := none, pdfReported := none }

/-- Model of `main` from `tailor.py` (named `tailorMain` because Lean
reserves the identifier `main` for executables), following the source
order: arity check, directory check, credential check, read
`resume.tex`, locate the posting (exiting when none), read it, invoke
the LLM, strip fences, validate (warning only), write the output file,
compile, and exit 0 exactly when both compiler passes succeeded. -/
def tailorMain (w : World) : Trace :=
  if w.argv.length ≠ 2 then errTrace [] false
  else if !w.dirExists then errTrace [] false
  else if !(apiKeyPresent w.apiKey) then errTrace [] false
  else
    match find_job_posting w.txtFiles with
    | FindOutcome.exitNoTxt => errTrace [resumeTexPath w] true
    | FindOutcome.found posting_path warned =>
      let tailored := stripFencesStr w.llmResponse
      let v := validateLatexStr tailored
      let ct := compile_pdf (outputTexPath w) (companyDir w) w.pass1 w.pass2
      { exitCode := if ct.success then 0 else 1,
        llmCalled := true,
        filesRead := [resumeTexPath w, posting_path],
        written := some (outputTexPath w, tailored),
        validation := some v,
        validationWarned := !v,
        multiTxtWarned := warned,
        notFoundTxt := false,
        compiled := some ct,
        pdfReported := if ct.success then some (pyReplaceS ".tex" ".pdf" (outputTexPath w)) else none }

/-- A string is clean for the sanitizer when each of its three stages
leaves it unchanged: no surrounding whitespace, no leading-fence match,
no trailing-fence match. -/
def isClean (s : List Char) : Bool :=
  (pyStrip s == s) && (stripLeadFence s == s) && (stripTrailFence s == s)

/-- A run whose LLM reply lacks the document markers, with both
compiler passes succeeding. -/
def wNoMarkers : World :=
  { repoRoot := "/repo", argv := ["tailor.py", "acme"], apiKey := some "k",
    dirExists := true, txtFiles := ["/repo/offers/acme/jd.txt"],
    resumeContent := "res", postingContent := "post",
    llmResponse := "plain text without markers",
    pass1 := { returncode := 0, stdout := "" },
    pass2 := { returncode := 0, stdout := "" } }

/-- A run whose job folder holds no `.txt` file. -/
def wNoTxt : World :=
  { repoRoot := "/repo", argv := ["tailor.py", "acme"], apiKey := some "k",
    dirExists := true, txtFiles := [],
    resumeContent := "res", postingContent := "post", llmResponse := "out",
    pass1 := { returncode := 0, stdout := "" },
    pass2 := { returncode := 0, stdout := "" } }

/-- A run with the credential variable unset. -/
def wNoKey : World :=
  { repoRoot := "/repo", argv := ["tailor.py", "acme"], apiKey := none,
    dirExists := true, txtFiles := ["/repo/offers/acme/jd.txt"],
    resumeContent := "res", postingContent := "post", llmResponse := "out",
    pass1 := { returncode := 0, stdout := "" },
    pass2 := { returncode := 0, stdout := "" } }

/-- A fully successful run with an ordinary job identifier. -/
def wGood : World :=
  { repoRoot := "/r", argv := ["tailor.py", "acme"], apiKey := some "k",
    dirExists := true, txtFiles := ["/r/offers/acme/jd.txt"],
    resumeContent := "res", postingContent := "post",
    llmResponse := "```latex\n\\begin{document} x \\end{document}\n```",
    pass1 := { returncode := 0, stdout := "" },
    pass2 := { returncode := 0, stdout := "" } }

/-- A successful run whose job identifier contains the substring
`.tex`. -/
def wTexId : World :=
  { repoRoot := "/r", argv := ["tailor.py", "a.tex"], apiKey := some "k",
    dirExists := true, txtFiles := ["/r/offers/a.tex/jd.txt"],
    resumeContent := "res", postingContent := "post",
    llmResponse := "\\begin{document} x \\end{document}",
    pass1 := { returncode := 0, stdout := "" },
    pass2 := { returncode := 0, stdout := "" } }

theorem containsSub_correct (pat : List Char) (s : List Char) :
    containsSub pat s = true ↔ pat <:+: s := by
  induction s with
  | nil =>
    simp [containsSub, List.isEmpty_iff]
  | cons c rest ih =>
    rw [containsSub, Bool.or_eq_true, ih, List.infix_cons_iff, List.isPrefixOf_iff_prefix]

theorem consumeWsNl_suffix : ∀ {s r : List Char}, consumeWsNl s = some r → r <:+ s := by
  intro s
  induction s with
  | nil => intro r h; simp [consumeWsNl] at h
  | cons c rest ih =>
    intro r h
    rw [consumeWsNl] at h
    by_cases hc : isPySpace c
    · rw [if_pos hc] at h
      cases hrec : consumeWsNl rest with
      | some r2 =>
        rw [hrec] at h
        cases h
        exact (ih hrec).trans (List.suffix_cons c rest)
      | none =>
        rw [hrec] at h
        by_cases hnl : c == '\n'
        · rw [if_pos hnl] at h
          cases h
          exact List.suffix_cons c rest
        · rw [if_neg hnl] at h
          cases h
    · rw [if_neg hc] at h
      cases h

theorem consumeWsNl_none_iff (s : List Char) :
    consumeWsNl s = none ↔ ((s.takeWhile isPySpace).all fun c => !(c == '\n')) = true := by
  induction s with
  | nil => simp [consumeWsNl]
  | cons c rest ih =>
    by_cases hc : isPySpace c
    · by_cases hnl : c = '\n'
      · subst hnl
        rw [consumeWsNl, if_pos hc]
        constructor
        · intro h
          exfalso
          cases hrec : consumeWsNl rest with
          | some r2 => rw [hrec] at h; cases h
          | none => rw [hrec] at h; simp at h
        · intro h
          rw [List.takeWhile_cons, if_pos hc] at h
          simp at h
      · rw [consumeWsNl, if_pos hc, List.takeWhile_cons, if_pos hc]
        have hb : (c == '\n') = false := by
          cases hbe : c == '\n' with
          | false => rfl
          | true => exact absurd (by simpa using hbe) hnl
        cases hrec : consumeWsNl rest with
        | some r2 =>
          simp only [List.all_cons, hb, Bool.not_false, Bool.true_and]
          rw [← ih, hrec]
        | none =>
          simp only [List.all_cons, hb, Bool.not_false, Bool.true_and]
          rw [← ih, hrec, if_neg (by simp [hb])]
    · rw [consumeWsNl, if_neg hc, List.takeWhile_cons, if_neg hc]
      simp

theorem takeWhile_append_of_any (p : Char → Bool) (b t : List Char)
    (h : (b.any fun c => !(p c)) = true) : (b ++ t).takeWhile p = b.takeWhile p := by
  induction b with
  | nil => simp at h
  | cons c b' ih =>
    by_cases hc : p c
    · have h' : (b'.any fun c => !(p c)) = true := by
        rw [List.any_cons, hc] at h
        simpa using h
      rw [List.cons_append, List.takeWhile_cons, if_pos hc, List.takeWhile_cons, if_pos hc,
        ih h']
    · rw [List.cons_append, List.takeWhile_cons, if_neg hc, List.takeWhile_cons, if_neg hc]

theorem tryTag_suffix {tag r0 r : List Char} (h : tryTag tag r0 = some r) : r <:+ r0 := by
  rw [tryTag] at h
  by_cases hp : tag.isPrefixOf r0
  · rw [if_pos hp] at h
    exact (consumeWsNl_suffix h).trans (List.drop_suffix tag.length r0)
  · rw [if_neg hp] at h
    cases h

theorem lead_suffix (s : List Char) : stripLeadFence s <:+ s := by
  rw [stripLeadFence]
  by_cases hf : fence.isPrefixOf s
  · rw [if_pos hf]
    cases h1 : tryTag latexTag (s.drop 3) with
    | some r => exact (tryTag_suffix h1).trans (List.drop_suffix 3 s)
    | none =>
      cases h2 : tryTag texTag (s.drop 3) with
      | some r => exact (tryTag_suffix h2).trans (List.drop_suffix 3 s)
      | none =>
        cases h3 : consumeWsNl (s.drop 3) with
        | some r => exact (consumeWsNl_suffix h3).trans (List.drop_suffix 3 s)
        | none => exact List.suffix_refl s
  · rw [if_neg hf]

theorem trail_front (s : List Char) : stripTrailFence s <+: s := by
  induction s with
  | nil => exact ⟨[], rfl⟩
  | cons c rest ih =>
    rw [stripTrailFence]
    by_cases h : trailAt (c :: rest)
    · rw [if_pos h]
      exact ⟨c :: rest, rfl⟩
    · rw [if_neg h]
      obtain ⟨t, ht⟩ := ih
      exact ⟨t, by rw [List.cons_append, ht]⟩

theorem pyStripRight_front (s : List Char) : pyStripRight s <+: s := by
  rw [pyStripRight]
  obtain ⟨t, ht⟩ := List.dropWhile_suffix (l := s.reverse) isPySpace
  exact ⟨t.reverse, by rw [← List.reverse_append, ht, List.reverse_reverse]⟩

theorem pyStrip_within (s : List Char) : pyStrip s <:+: s := by
  obtain ⟨r, hr⟩ := pyStripRight_front (pyStripLeft s)
  obtain ⟨t, ht⟩ := List.dropWhile_suffix (l := s) isPySpace
  refine ⟨t, r, ?_⟩
  rw [List.append_assoc, pyStrip, hr]
  exact ht

theorem strip_fences_within (s : List Char) : strip_markdown_fences s <:+: s := by
  obtain ⟨r, hr⟩ := trail_front (stripLeadFence (pyStrip s))
  obtain ⟨t, ht⟩ := lead_suffix (pyStrip s)
  have h1 : strip_markdown_fences s <:+: pyStrip s :=
    ⟨t, r, by rw [strip_markdown_fences, List.append_assoc, hr, ht]⟩
  exact h1.trans (pyStrip_within s)

theorem all_drop_backtick (l : List Char) (n : Nat) (h : n ≤ l.length) :
    ((l ++ [backtick]).drop n).all isPySpace = false := by
  rw [List.drop_append_of_le_length h, List.all_append]
  have hb : isPySpace backtick = false := by decide
  simp [hb]

theorem stripTrail_append (b : List Char) : stripTrailFence (b ++ nlFence) = b := by
  induction b with
  | nil => decide
  | cons c b' ih =>
    have hsplit : b' ++ nlFence = (b' ++ ['\n', backtick, backtick]) ++ [backtick] := by
      rw [List.append_assoc]
      rfl
    have hall : ((c :: (b' ++ nlFence)).drop 4).all isPySpace = false := by
      rw [List.drop_succ_cons, hsplit]
      exact all_drop_backtick _ 3 (by simp)
    have hta : trailAt (c :: (b' ++ nlFence)) = false := by
      rw [trailAt, hall, Bool.and_false]
    rw [List.cons_append, stripTrailFence, if_neg (by simp [hta]), ih]

theorem pyStrip_eq_self (s : List Char)
    (h1 : ∀ c, s.head? = some c → isPySpace c = false)
    (h2 : ∀ c, s.getLast? = some c → isPySpace c = false) : pyStrip s = s := by
  cases s with
  | nil => rfl
  | cons c t =>
    have hl : pyStripLeft (c :: t) = c :: t := by
      rw [pyStripLeft, List.dropWhile_cons, if_neg (by simp [h1 c rfl])]
    rw [pyStrip, hl, pyStripRight]
    cases hr : (c :: t).reverse with
    | nil => simp at hr
    | cons d u =>
      have hd : isPySpace d = false := by
        apply h2
        rw [← List.head?_reverse, hr]
        rfl
      rw [List.dropWhile_cons, if_neg (by simp [hd]), ← hr, List.reverse_reverse]

theorem stripLeadFence_wrap (tag R : List Char)
    (htag : tag = [] ∨ tag = latexTag ∨ tag = texTag)
    (hR : consumeWsNl R = none) :
    stripLeadFence (fence ++ (tag ++ '\n' :: R)) = R := by
  have hnlsp : isPySpace '\n' = true := by decide
  have hnl : consumeWsNl ('\n' :: R) = some R := by
    rw [consumeWsNl, if_pos hnlsp, hR, if_pos (by decide)]
  have hf : fence.isPrefixOf (fence ++ (tag ++ '\n' :: R)) = true :=
    List.isPrefixOf_iff_prefix.mpr ( List.prefix_append _ _)
  have hdrop : (fence ++ (tag ++ '\n' :: R)).drop 3 = tag ++ '\n' :: R := by
    have h3 : (3 : Nat) = fence.length := rfl
    rw [h3, List.drop_left]
  rcases htag with h | h | h
  · subst h
    rw [stripLeadFence, if_pos hf, hdrop]
    simp only [List.nil_append]
    have e1 : tryTag latexTag ('\n' :: R) = none := by
      rw [tryTag, if_neg (by simp +decide [latexTag, List.isPrefixOf])]
    have e2 : tryTag texTag ('\n' :: R) = none := by
      rw [tryTag, if_neg (by simp +decide [texTag, List.isPrefixOf])]
    rw [e1, e2, hnl]
  · subst h
    rw [stripLeadFence, if_pos hf, hdrop]
    have e1 : tryTag latexTag (latexTag ++ '\n' :: R) = some R := by
      rw [tryTag, if_pos ( List.isPrefixOf_iff_prefix.mpr ( List.prefix_append _ _)),
        List.drop_left]
      exact hnl
    rw [e1]
  · subst h
    rw [stripLeadFence, if_pos hf, hdrop]
    have e0 : tryTag latexTag (texTag ++ '\n' :: R) = none := by
      rw [tryTag, if_neg (by simp +decide [latexTag, texTag, List.isPrefixOf])]
    have e2 : tryTag texTag (texTag ++ '\n' :: R) = some R := by
      rw [tryTag, if_pos ( List.isPrefixOf_iff_prefix.mpr ( List.prefix_append _ _)),
        List.drop_left]
      exact hnl
    rw [e0, e2]

theorem trail_nofence (s : List Char) (h : containsSub fence s = false) :
    stripTrailFence s = s := by
  induction s with
  | nil => rfl
  | cons c rest ih =>
    simp only [containsSub] at h
    have hp : fence.isPrefixOf (c :: rest) = false := by
      cases hfp : fence.isPrefixOf (c :: rest) with
      | false => rfl
      | true => rw [hfp] at h; simp at h
    have hrest : containsSub fence rest = false := by
      rw [hp] at h
      simpa using h
    have hta : trailAt (c :: rest) = false := by
      rw [trailAt]
      cases hnp : nlFence.isPrefixOf (c :: rest) with
      | false => rw [Bool.false_and]
      | true =>
        exfalso
        obtain ⟨t, ht⟩ := List.isPrefixOf_iff_prefix.mp hnp
        rw [nlFence, List.cons_append] at ht
        injection ht with hc1 hc2
        have hcs : containsSub fence rest = true := by
          rw [containsSub_correct]
          exact ⟨[], t, by rw [List.nil_append, hc2]⟩
        rw [hcs] at hrest
        cases hrest
    rw [stripTrailFence, if_neg (by simp [hta]), ih hrest]

theorem strLast_length_le (n : Nat) (s : String) : (strLast n s).length ≤ n := by
  have h : (strLast n s).length = (s.data.drop (s.data.length - n)).length := rfl
  rw [h, List.length_drop]
  omega

theorem isPrefixOf_false_extend (pat l : List Char) (hl : l ≠ [])
    (h : pat.isPrefixOf (l ++ pat.dropLast) = false) : pat.isPrefixOf (l ++ pat) = false := by
  cases pat with
  | nil => simp [List.isPrefixOf] at h
  | cons p pt =>
    cases hp : (p :: pt).isPrefixOf (l ++ p :: pt) with
    | false => rfl
    | true =>
      exfalso
      have h1 : (p :: pt) <+: (l ++ p :: pt) := List.isPrefixOf_iff_prefix.mp hp
      have hdl : (p :: pt).dropLast <+: (p :: pt) :=
        ⟨[(p :: pt).getLast (by simp)], List.dropLast_append_getLast (by simp)⟩
      obtain ⟨t0, ht0⟩ := hdl
      have h2 : (l ++ (p :: pt).dropLast) <+: (l ++ p :: pt) :=
        ⟨t0, by rw [List.append_assoc, ht0]⟩
      have hlen : (p :: pt).length ≤ (l ++ (p :: pt).dropLast).length := by
        rw [List.length_append, List.length_dropLast]
        have hpos : 0 < l.length := List.length_pos.mpr hl
        simp only [List.length_cons]
        omega
      have h3 : (p :: pt) <+: (l ++ (p :: pt).dropLast) :=
        List.prefix_of_prefix_length_le h1 h2 hlen
      exact Bool.noConfusion (h ▸ ( List.isPrefixOf_iff_prefix.mpr h3))

theorem pyReplaceAux_last (pat rep : List Char) (hp : pat ≠ []) :
    ∀ (A : List Char) (fuel : Nat), (A ++ pat).length ≤ fuel →
      containsSub pat (A ++ pat.dropLast) = false →
      pyReplaceAux pat rep fuel (A ++ pat) = A ++ rep := by
  intro A
  induction A with
  | nil =>
    intro fuel hf hc
    rw [List.nil_append] at hf ⊢
    cases pat with
    | nil => exact absurd rfl hp
    | cons p pt =>
      cases fuel with
      | zero => simp at hf
      | succ k =>
        simp only [pyReplaceAux]
        rw [if_pos ( List.isPrefixOf_iff_prefix.mpr ⟨[], by simp⟩)]
        have hd : pt.drop ((p :: pt).length - 1) = [] := by
          simp [List.length_cons, List.drop_length]
        rw [hd]
        simp [pyReplaceAux]
  | cons a A' ih =>
    intro fuel hf hc
    simp only [containsSub, List.cons_append, List.append_eq] at hc
    have hcp : pat.isPrefixOf ((a :: A') ++ pat.dropLast) = false := by
      cases hx : pat.isPrefixOf (a :: (A' ++ pat.dropLast)) with
      | false => rw [List.cons_append]; exact hx
      | true => rw [hx] at hc; simp at hc
    have hcr : containsSub pat (A' ++ pat.dropLast) = false := by
      cases hx : containsSub pat (A' ++ pat.dropLast) with
      | false => rfl
      | true => rw [hx] at hc; simp at hc
    have hpref : pat.isPrefixOf (a :: (A' ++ pat)) = false := by
      have h0 := isPrefixOf_false_extend pat (a :: A') (by simp) hcp
      rw [List.cons_append] at h0
      exact h0
    cases fuel with
    | zero => simp at hf
    | succ k =>
      rw [List.cons_append]
      simp only [pyReplaceAux]
      rw [if_neg (by simp [hpref])]
      have hlen : (A' ++ pat).length ≤ k := by
        rw [List.cons_append, List.length_cons] at hf
        omega
      rw [ih k hlen hcr, List.cons_append]

theorem pyReplace_last (pat rep A : List Char) (hp : pat ≠ [])
    (hc : containsSub pat (A ++ pat.dropLast) = false) :
    pyReplace pat rep (A ++ pat) = A ++ rep := by
  cases pat with
  | nil => exact absurd rfl hp
  | cons p pt =>
    simp only [pyReplace]
    exact pyReplaceAux_last (p :: pt) rep (by simp) A _ (le_refl _) hc

theorem outputTex_split (w : World) :
    ∃ base : List Char, (outputTexPath w).data = base ++ ".tex".data := by
  rw [outputTexPath, ospJoin]
  split_ifs with hA hB
  · exact ⟨("resume-" ++ offerName w).data, by simp [String.data_append]⟩
  · exact ⟨(companyDir w).data ++ ("resume-" ++ offerName w).data, by
      simp [String.data_append, List.append_assoc]⟩
  · exact ⟨(companyDir w).data ++ "/".data ++ ("resume-" ++ offerName w).data, by
      simp [String.data_append, List.append_assoc]⟩

/-- C10: the sanitizer only removes a prefix and a suffix of its input:
its output is a contiguous substring of the input, and in particular
never longer than the input. -/
theorem sanitize_substring_of_input (x : List Char) :
    strip_markdown_fences x <:+: x ∧ (strip_markdown_fences x).length ≤ x.length :=
  ⟨strip_fences_within x, (strip_fences_within x).length_le⟩

/-- C3: the structural validator returns true exactly when both literal
document markers occur somewhere in the text, regardless of order or
surrounding content. -/
theorem validate_latex_iff_markers (t : List Char) :
    validate_latex t = true ↔ (beginMarker <:+: t ∧ endMarker <:+: t) := by
  rw [validate_latex, Bool.and_eq_true, containsSub_correct, containsSub_correct]

/-- C1 counterexample: the sanitizer is not idempotent; on the input
consisting of an opening fence line followed by a space and a letter,
one application leaves a leading space that a second application
removes. -/
theorem sanitize_not_idempotent_cex :
    strip_markdown_fences (strip_markdown_fences "```\n x".data) ≠
      strip_markdown_fences "```\n x".data := by decide

/-- C1 amended: the sanitizer is a fixed point on every input whose
sanitized form is clean (no surrounding whitespace, no leading-fence
match, no trailing-fence match); on such inputs a second application is
a no-op. -/
theorem sanitize_idem_on_clean (x : List Char)
    (h : isClean (strip_markdown_fences x) = true) :
    strip_markdown_fences (strip_markdown_fences x) = strip_markdown_fences x := by
  rw [isClean, Bool.and_eq_true, Bool.and_eq_true] at h
  obtain ⟨⟨h1, h2⟩, h3⟩ := h
  rw [beq_iff_eq] at h1 h2 h3
  show stripTrailFence (stripLeadFence (pyStrip (strip_markdown_fences x))) =
    strip_markdown_fences x
  rw [h1, h2, h3]

/-- Witness for the amended C1 theorem at a concrete fenced input. -/
theorem sanitize_idem_on_clean_witness :
    isClean (strip_markdown_fences "```latex\nhello\n```".data) = true ∧
    strip_markdown_fences (strip_markdown_fences "```latex\nhello\n```".data) =
      strip_markdown_fences "```latex\nhello\n```".data :=
  ⟨by decide, sanitize_idem_on_clean "```latex\nhello\n```".data (by decide)⟩

/-- C2 amended: wrapping a body in a fenced block with one of the
literal lowercase tags (or none) is undone by the sanitizer, provided
the body has a character that is not whitespace and its leading
whitespace contains no newline; and on input with no fence marker at
all the output is the input stripped of surrounding whitespace. -/
theorem sanitize_fence_spec :
    (∀ tag b : List Char, (tag = [] ∨ tag = latexTag ∨ tag = texTag) →
      ((b.takeWhile isPySpace).all fun c => !(c == '\n')) = true →
      (b.any fun c => !(isPySpace c)) = true →
      strip_markdown_fences (fence ++ (tag ++ '\n' :: (b ++ nlFence))) = b) ∧
    (∀ x : List Char, containsSub fence x = false → strip_markdown_fences x = pyStrip x) := by
  constructor
  · intro tag b htag hws hnb
    have hR : consumeWsNl (b ++ nlFence) = none := by
      rw [consumeWsNl_none_iff, takeWhile_append_of_any _ _ _ hnb]
      exact hws
    have hstrip : pyStrip (fence ++ (tag ++ '\n' :: (b ++ nlFence))) =
        fence ++ (tag ++ '\n' :: (b ++ nlFence)) := by
      apply pyStrip_eq_self
      · intro c hc
        simp only [show fence ++ (tag ++ '\n' :: (b ++ nlFence)) =
          backtick :: ([backtick, backtick] ++ (tag ++ '\n' :: (b ++ nlFence))) from rfl,
          List.head?_cons, Option.some.injEq] at hc
        rw [← hc]
        decide
      · intro c hc
        have hsplit : fence ++ (tag ++ '\n' :: (b ++ nlFence)) =
            (fence ++ (tag ++ '\n' :: (b ++ ['\n', backtick, backtick]))) ++ [backtick] := by
          simp [nlFence, fence, List.append_assoc]
        rw [hsplit, List.getLast?_concat] at hc
        simp only [Option.some.injEq] at hc
        rw [← hc]
        decide
    calc strip_markdown_fences (fence ++ (tag ++ '\n' :: (b ++ nlFence)))
        = stripTrailFence (stripLeadFence (fence ++ (tag ++ '\n' :: (b ++ nlFence)))) := by
          rw [strip_markdown_fences, hstrip]
      _ = stripTrailFence (b ++ nlFence) := by
          rw [stripLeadFence_wrap tag (b ++ nlFence) htag hR]
      _ = b := stripTrail_append b
  · intro x hx
    have hpy : containsSub fence (pyStrip x) = false := by
      cases hcs : containsSub fence (pyStrip x) with
      | false => rfl
      | true =>
        exfalso
        have h1 : fence <:+: x :=
          ((containsSub_correct fence (pyStrip x)).mp hcs).trans (pyStrip_within x)
        have h2 : containsSub fence x = true := (containsSub_correct fence x).mpr h1
        rw [h2] at hx
        cases hx
    have hlead : stripLeadFence (pyStrip x) = pyStrip x := by
      rw [stripLeadFence]
      have hpf : fence.isPrefixOf (pyStrip x) = false := by
        cases hp : fence.isPrefixOf (pyStrip x) with
        | false => rfl
        | true =>
          exfalso
          obtain ⟨t, ht⟩ := List.isPrefixOf_iff_prefix.mp hp
          have hone : containsSub fence (pyStrip x) = true :=
            (containsSub_correct _ _).mpr ⟨[], t, by rw [List.nil_append, ht]⟩
          rw [hone] at hpy
          cases hpy
      rw [if_neg (by simp [hpf])]
    rw [strip_markdown_fences, hlead, trail_nofence _ hpy]

/-- Witness for the amended C2 theorem: a concrete fenced body is
unwrapped, and a concrete fence-free input is merely stripped. -/
theorem sanitize_fence_spec_witness :
    strip_markdown_fences (fence ++ (latexTag ++ '\n' :: ("body".data ++ nlFence))) = "body".data ∧
    strip_markdown_fences " hi ".data = pyStrip " hi ".data :=
  ⟨sanitize_fence_spec.1 latexTag "body".data (Or.inr (Or.inl rfl)) (by decide) (by decide),
    sanitize_fence_spec.2 " hi ".data (by decide)⟩

/-- C2 counterexample: a fence-free input with surrounding whitespace is
not returned byte-identically; an uppercase language tag is not
recognised; an all-whitespace body and a body starting with a newline
are not returned unchanged from their fenced wrappings. -/
theorem sanitize_fence_cex :
    (containsSub fence " a ".data = false ∧ strip_markdown_fences " a ".data ≠ " a ".data) ∧
    strip_markdown_fences "```TEX\nbody\n```".data ≠ "body".data ∧
    strip_markdown_fences "```\n \n```".data ≠ " ".data ∧
    strip_markdown_fences "```\n\nxy\n```".data ≠ "\nxy".data := by decide

/-- C6: on a nonempty match list the locator returns the first path,
never the not-found exit, and warns exactly when more than one file
matched. -/
theorem find_job_posting_first (files : List String) (h : files ≠ []) :
    ∃ warned, find_job_posting files = FindOutcome.found files.headI warned ∧
      (warned = true ↔ 1 < files.length) := by
  cases files with
  | nil => exact absurd rfl h
  | cons p rest =>
    refine ⟨!rest.isEmpty, rfl, ?_⟩
    cases rest with
    | nil => simp
    | cons q rest' =>
      simp only [List.isEmpty_cons, Bool.not_false, List.length_cons]
      constructor
      · intro _
        omega
      · intro _
        trivial

/-- Witness for the C6 theorem on a concrete two-element listing. -/
theorem find_job_posting_first_witness :
    ∃ warned, find_job_posting ["a.txt", "b.txt"] =
        FindOutcome.found (["a.txt", "b.txt"] : List String).headI warned ∧
      (warned = true ↔ 1 < (["a.txt", "b.txt"] : List String).length) :=
  find_job_posting_first ["a.txt", "b.txt"] (by simp)

/-- C7: the compiler invoker runs pass 2 exactly when pass 1 exited
zero, succeeds exactly when both passes exited zero, reports the
expected log path exactly on failure, and any surfaced output tail is
at most 2000 characters. -/
theorem compile_pdf_spec (tex dir : String) (p1 p2 : PassResult) :
    ((compile_pdf tex dir p1 p2).pass2Ran = true ↔ p1.returncode = 0) ∧
    ((compile_pdf tex dir p1 p2).success = true ↔ (p1.returncode = 0 ∧ p2.returncode = 0)) ∧
    (compile_pdf tex dir p1 p2).reportedLog =
      (if (compile_pdf tex dir p1 p2).success then none
        else some (ospJoin dir (pyReplaceS ".tex" ".log" (basename tex)))) ∧
    ((compile_pdf tex dir p1 p2).reportedTail.all fun t => decide (t.length ≤ 2000)) = true := by
  by_cases h1 : p1.returncode = 0 <;> by_cases h2 : p2.returncode = 0 <;>
    simp [compile_pdf, h1, h2, Option.all, strLast_length_le]

/-- C4: once the pipeline reaches the generation stage, the tailored
file is recorded as written whatever the validator returns; the
validator's failure only sets the warning flag, and the exit status is
determined by the compiler alone. -/
theorem main_writes_despite_validation (w : World) (p : String) (rest : List String)
    (hargv : w.argv.length = 2) (hdir : w.dirExists = true)
    (hkey : apiKeyPresent w.apiKey = true) (hfiles : w.txtFiles = p :: rest) :
    (tailorMain w).written = some (outputTexPath w, stripFencesStr w.llmResponse) ∧
    (tailorMain w).validation = some (validateLatexStr (stripFencesStr w.llmResponse)) ∧
    (tailorMain w).validationWarned = !(validateLatexStr (stripFencesStr w.llmResponse)) ∧
    (tailorMain w).exitCode =
      (if (compile_pdf (outputTexPath w) (companyDir w) w.pass1 w.pass2).success
        then 0 else 1) := by
  simp [tailorMain, hargv, hdir, hkey, hfiles, find_job_posting]

/-- Witness for the C4 theorem: a run whose LLM reply lacks both
markers still records the file as written and only warns. -/
theorem main_writes_despite_validation_witness :
    (tailorMain wNoMarkers).written =
      some (outputTexPath wNoMarkers, stripFencesStr wNoMarkers.llmResponse) ∧
    (tailorMain wNoMarkers).validation =
      some (validateLatexStr (stripFencesStr wNoMarkers.llmResponse)) ∧
    (tailorMain wNoMarkers).validationWarned =
      !(validateLatexStr (stripFencesStr wNoMarkers.llmResponse)) ∧
    (tailorMain wNoMarkers).exitCode =
      (if (compile_pdf (outputTexPath wNoMarkers) (companyDir wNoMarkers)
          wNoMarkers.pass1 wNoMarkers.pass2).success then 0 else 1) :=
  main_writes_despite_validation wNoMarkers "/repo/offers/acme/jd.txt" [] rfl rfl (by decide) rfl

/-- C5: when the job folder holds no `.txt` file, the run exits with
status 1 via the not-found path, makes no LLM call, and writes no
file. -/
theorem main_no_txt_fails (w : World) (hargv : w.argv.length = 2) (hdir : w.dirExists = true)
    (hkey : apiKeyPresent w.apiKey = true) (hfiles : w.txtFiles = []) :
    (tailorMain w).exitCode = 1 ∧ (tailorMain w).notFoundTxt = true ∧
    (tailorMain w).llmCalled = false ∧ (tailorMain w).written = none := by
  simp [tailorMain, hargv, hdir, hkey, hfiles, find_job_posting, errTrace]

/-- Witness for the C5 theorem on a concrete empty listing. -/
theorem main_no_txt_fails_witness :
    (tailorMain wNoTxt).exitCode = 1 ∧ (tailorMain wNoTxt).notFoundTxt = true ∧
    (tailorMain wNoTxt).llmCalled = false ∧ (tailorMain wNoTxt).written = none :=
  main_no_txt_fails wNoTxt rfl rfl (by decide) rfl

/-- C8: when the credential variable is absent the run exits with
status 1, no LLM call happens, and no file is ever opened for
reading, whatever the rest of the world looks like. -/
theorem main_missing_key_fails (w : World) (hkey : w.apiKey = none) :
    (tailorMain w).exitCode = 1 ∧ (tailorMain w).llmCalled = false ∧
    (tailorMain w).filesRead = [] := by
  by_cases h1 : w.argv.length ≠ 2
  · simp [tailorMain, h1, errTrace]
  · by_cases h2 : w.dirExists
    · simp [tailorMain, h1, h2, hkey, apiKeyPresent, errTrace]
    · simp [tailorMain, h1, h2, errTrace]

/-- Witness for the C8 theorem on a concrete world without the key. -/
theorem main_missing_key_fails_witness :
    (tailorMain wNoKey).exitCode = 1 ∧ (tailorMain wNoKey).llmCalled = false ∧
    (tailorMain wNoKey).filesRead = [] :=
  main_missing_key_fails wNoKey rfl

/-- C9 counterexample: for the job identifier `a.tex` the reported
artifact path replaces every occurrence of `.tex`, so it is not the
source path with its extension swapped. -/
theorem main_pdf_path_cex :
    outputTexPath wTexId = "/r/offers/a.tex/resume-a.tex.tex" ∧
    (tailorMain wTexId).pdfReported = some "/r/offers/a.pdf/resume-a.pdf.pdf" ∧
    (tailorMain wTexId).pdfReported ≠ some "/r/offers/a.tex/resume-a.tex.pdf" := by decide

/-- C9 amended: when both passes succeed and `.tex` occurs in the
source path only as its final extension, the run exits 0 and the
reported artifact path is the source path with that final `.tex`
replaced by `.pdf`. -/
theorem main_pdf_path_amended (w : World) (p : String) (rest : List String)
    (hargv : w.argv.length = 2) (hdir : w.dirExists = true)
    (hkey : apiKeyPresent w.apiKey = true) (hfiles : w.txtFiles = p :: rest)
    (hp1 : w.pass1.returncode = 0) (hp2 : w.pass2.returncode = 0)
    (hocc : containsSub ".tex".data (outputTexPath w).data.dropLast = false) :
    (tailorMain w).exitCode = 0 ∧
    ∃ base : List Char, (outputTexPath w).data = base ++ ".tex".data ∧
      (tailorMain w).pdfReported = some (String.mk (base ++ ".pdf".data)) := by
  obtain ⟨base, hb⟩ := outputTex_split w
  have hct : (compile_pdf (outputTexPath w) (companyDir w) w.pass1 w.pass2).success = true := by
    simp [compile_pdf, hp1, hp2]
  have hrep : pyReplaceS ".tex" ".pdf" (outputTexPath w) = String.mk (base ++ ".pdf".data) := by
    rw [pyReplaceS]
    congr 1
    rw [hb]
    apply pyReplace_last _ _ _ (by decide)
    have hd : (base ++ ".tex".data).dropLast = base ++ ".tex".data.dropLast :=
      List.dropLast_append_of_ne_nil base (by decide)
    rw [← hd, ← hb]
    exact hocc
  constructor
  · simp [tailorMain, hargv, hdir, hkey, hfiles, find_job_posting, hct]
  · exact ⟨base, hb, by
      simp [tailorMain, hargv, hdir, hkey, hfiles, find_job_posting, hct, hrep]⟩

/-- Witness for the amended C9 theorem on a fully successful concrete
run with job identifier `acme`. -/
theorem main_pdf_path_amended_witness :
    (tailorMain wGood).exitCode = 0 ∧
    ∃ base : List Char, (outputTexPath wGood).data = base ++ ".tex".data ∧
      (tailorMain wGood).pdfReported = some (String.mk (base ++ ".pdf".data)) :=
  main_pdf_path_amended wGood "/r/offers/acme/jd.txt" [] rfl rfl (by decide) rfl rfl rfl
    (by decide)
